import Mathlib

/-!
Shallow embedding of `src/retractions/get_retraction_metadata.py`: date
normalization (`standardize_date`), the two citation-counting routines
(`count_citations`, `process_citation_counts`), the best-effort citation
fetcher (`fetch_citations`), the encoding-fallback CSV reader
(`read_csv_robust`), and the row-cleaning stage of `main`.

Modelling conventions:
* Python scalar values that flow through the date code are modelled by
  `PyVal`: `None`, the float `NaN` (both satisfy `pd.isna`), strings, and a
  representative non-string non-null value (`int`).
* A Lean result of `Option.none` on a function whose Python counterpart can
  throw models an uncaught exception escaping that function.
* Calendar dates are triples of naturals compared lexicographically; the
  date parsers of the external libraries (`datetime.strptime` with format
  `%Y-%m-%d`, and `pd.to_datetime` applied to `-`-separated date strings)
  are modelled by `parseYmd`: a four-digit year at least 1, a one- or
  two-digit month in 1..12, and a one- or two-digit day valid for that
  month and year.  Exotic input formats accepted only by pandas and the
  nanosecond-range bounds of `pd.Timestamp` are outside the model.
-/

set_option autoImplicit false

namespace RetractionMeta

/-- A Python scalar value as it appears in the date-handling code paths:
`None`, float `NaN`, a string, or a representative non-string non-null
value (an `int`).  `pd.isna` holds exactly for the first two. -/
inductive PyVal where
  | none
  | nan
  | str (s : String)
  | int (n : Int)
deriving DecidableEq

/-- Models `pd.isna` on the scalar values of `PyVal`. -/
def pd_isna : PyVal → Bool
  | .none => true
  | .nan => true
  | .str _ => false
  | .int _ => false

/-- A calendar date `(year, month, day)`.  Comparisons of `datetime.date`
and `pd.Timestamp` values are lexicographic on these components. -/
structure Date where
  y : Nat
  m : Nat
  d : Nat
deriving DecidableEq

/-- Strict `<` on dates: lexicographic on year, month, day, exactly the
order used by `datetime.date` and `pd.Timestamp` comparisons. -/
def Date.lt (a b : Date) : Bool :=
  a.y < b.y || (a.y = b.y && (a.m < b.m || (a.m = b.m && a.d < b.d)))

/-- Gregorian leap-year test, as implemented by `datetime`. -/
def isLeap (y : Nat) : Bool :=
  (y % 4 = 0 && y % 100 ≠ 0) || y % 400 = 0

/-- Number of days in month `m` of year `y` (months numbered 1..12). -/
def daysInMonth (y m : Nat) : Nat :=
  if m = 2 then (if isLeap y then 29 else 28)
  else if m = 4 ∨ m = 6 ∨ m = 9 ∨ m = 11 then 30
  else 31

/-- Auxiliary loop for `splitDash`: split a character list at every `-`,
keeping the characters of the current field in `acc` (reversed). -/
def splitDashAux : List Char → List Char → List String
  | [], acc => [String.mk acc.reverse]
  | c :: cs, acc =>
    if c = '-' then String.mk acc.reverse :: splitDashAux cs []
    else splitDashAux cs (c :: acc)

/-- Models Python `s.split("-")`: splits at every occurrence of `-`,
without collapsing adjacent separators; the empty string yields `[""]`. -/
def splitDash (s : String) : List String := splitDashAux s.data []

/-- Models converting one all-digit field of a date string to a number
(the value a successful `strptime` group yields): fails unless the string
is nonempty and all digits. -/
def digitsToNat (s : String) : Option Nat :=
  if s.data ≠ [] ∧ s.data.all Char.isDigit
  then some (s.data.foldl (fun n c => n * 10 + (c.toNat - 48)) 0)
  else Option.none

/-- Models parsing a `-`-separated full date string, as done by
`datetime.strptime(s, "%Y-%m-%d")` and by `pd.to_datetime` on such
strings: exactly three `-`-separated components, a four-digit year of at
least 1, a one- or two-digit month in 1..12, and a one- or two-digit day
valid for that month and year.  Any other string fails (the library call
throws).  The `pd.Timestamp` nanosecond range bounds are not modelled. -/
def parseYmd (s : String) : Option Date :=
  match splitDash s with
  | [ys, ms, ds] =>
    match digitsToNat ys, digitsToNat ms, digitsToNat ds with
    | some y, some m, some d =>
      if ys.length = 4 ∧ 1 ≤ y ∧
         1 ≤ ms.length ∧ ms.length ≤ 2 ∧ 1 ≤ m ∧ m ≤ 12 ∧
         1 ≤ ds.length ∧ ds.length ≤ 2 ∧ 1 ≤ d ∧ d ≤ daysInMonth y m
      then some ⟨y, m, d⟩
      else Option.none
    | _, _, _ => Option.none
  | _ => Option.none

/-- Embedding of Python `standardize_date(date_str)`.  `Option.none`
models an uncaught exception: a non-string non-null argument has no
`.split` method, so the attribute access raises.  Otherwise the function
returns `np.nan` (the unknown marker) or a date string, following the
component count of `date_str.split("-")`. -/
def standardize_date : PyVal → Option PyVal
  | .none => some .nan
  | .nan => some .nan
  | .str s =>
    match splitDash s with
    | [_] => some .nan
    | [_, _] => some (.str (s ++ "-01"))
    | [_, _, _] => some (.str s)
    | _ => some .nan
  | .int _ => Option.none

/-- One citation entry returned by the OpenCitations API: a Python dict
of which only the `creation` field is consulted.  `creation = Option.none`
models a dict lacking the key (`citation["creation"]` raises `KeyError`). -/
structure Citation where
  creation : Option PyVal
deriving DecidableEq

/-- The result dict `{"before": ..., "after": ...}` of `count_citations`. -/
structure Counts where
  before : Nat
  after : Nat
deriving DecidableEq

/-- The loop of `count_citations`, with the two counters as accumulators.
Each entry is looked up (`KeyError` if the key is absent), standardized
(`AttributeError` if the value is a non-string non-null), skipped when the
standardized value is `NaN` (`pd.isna`), and otherwise parsed by
`pd.to_datetime` (which throws on unparseable strings) and compared
strictly to the target date.  `Option.none` models an exception escaping
the loop. -/
def count_citations_loop : List Citation → Date → Nat → Nat → Option Counts
  | [], _, b, a => some ⟨b, a⟩
  | c :: rest, target, b, a =>
    match c.creation with
    | Option.none => Option.none
    | some v =>
      match standardize_date v with
      | Option.none => Option.none
      | some .nan => count_citations_loop rest target b a
      | some .none => count_citations_loop rest target b a
      | some (.str s) =>
        match parseYmd s with
        | Option.none => Option.none
        | some d =>
          if Date.lt d target then count_citations_loop rest target (b + 1) a
          else if Date.lt target d then count_citations_loop rest target b (a + 1)
          else count_citations_loop rest target b a
      | some (.int _) => Option.none

/-- Embedding of Python `count_citations(citations, target_date)`:
run the loop with both counters starting at 0. -/
def count_citations (citations : List Citation) (target : Date) : Option Counts :=
  count_citations_loop citations target 0 0

/-- The per-entry step of `process_citation_counts`'s list comprehension:
`datetime.strptime(citation["creation"], "%Y-%m-%d").date()`.  `Option.none`
models the exception (`KeyError` for a missing key, `TypeError` for a
non-string value, `ValueError` for a string `strptime` rejects) that the
surrounding `try` block catches. -/
def citDate (c : Citation) : Option Date :=
  match c.creation with
  | some (.str s) => parseYmd s
  | _ => Option.none

/-- The list comprehension of `process_citation_counts` building
`creation_dates`: the dates of all entries in order, or `Option.none` as
soon as any entry raises. -/
def collectDates : List Citation → Option (List Date)
  | [] => some []
  | c :: rest =>
    match citDate c with
    | Option.none => Option.none
    | some d =>
      match collectDates rest with
      | Option.none => Option.none
      | some ds => some (d :: ds)

/-- Embedding of Python `process_citation_counts(citations, retraction_date)`:
inside a `try` block, parse every entry's creation date with `strptime`
(`%Y-%m-%d`) and count, over the resulting array, the dates `<` the
retraction date and the dates `>=` it.  Any exception is caught and the
function returns `(np.NaN, np.NaN)`, modelled by `Option.none`. -/
def process_citation_counts (citations : List Citation) (target : Date) :
    Option (Nat × Nat) :=
  match collectDates citations with
  | Option.none => Option.none
  | some ds => some (ds.countP (fun d => Date.lt d target),
                     ds.countP (fun d => !Date.lt d target))

/-- Outcome of the `requests.get` call inside `fetch_citations`: either an
exception during the request (`err`), or a response with a status code and
a body whose JSON parse yields a citation list (`Option.none` body models
`response.json()` raising). -/
inductive HttpResult where
  | err
  | response (status : Nat) (body : Option (List Citation))

/-- Embedding of Python `fetch_citations(doi)`, as a function of the HTTP
outcome: a 200 response returns the parsed JSON body, any other status
returns `[]`, and any exception (transport error or JSON parse failure) is
caught and yields `[]`. -/
def fetch_citations : HttpResult → List Citation
  | .err => []
  | .response status body =>
    if status = 200 then
      match body with
      | some citations => citations
      | Option.none => []
    else []

/-- A character encoding as passed to `pd.read_csv`: the two fixed
fallback encodings of `read_csv_robust`, or any other (e.g. detected)
encoding name. -/
inductive Encoding where
  | utf8
  | iso8859_1
  | other (name : String)
deriving DecidableEq

/-- Embedding of Python `read_csv_robust(file_path, ...)`, abstracted over
the parse attempts: `detected` is the encoding returned by `chardet` on the
file's byte prefix, and `attempt e` is the outcome of
`pd.read_csv(file_path, encoding=e, on_bad_lines="skip", sep=sep)` —
`some` table on success, `Option.none` when the call throws.  The chain of
`try`/`except` blocks tries `detected`, then UTF-8, then ISO-8859-1, and
returns `None` when all three fail. -/
def read_csv_robust {α : Type} (detected : Encoding)
    (attempt : Encoding → Option α) : Option α :=
  match attempt detected with
  | some df => some df
  | Option.none =>
    match attempt .utf8 with
    | some df => some df
    | Option.none =>
      match attempt .iso8859_1 with
      | some df => some df
      | Option.none => Option.none

/-- Day count of a date in the proleptic Gregorian calendar (days from an
epoch before year 1), used to model `.dt.days` of a timestamp difference. -/
def Date.toDays (dt : Date) : Nat :=
  365 * (dt.y - 1) + ((dt.y - 1) / 4 + (dt.y - 1) / 400 - (dt.y - 1) / 100) +
    ((List.range (dt.m - 1)).foldl (fun acc i => acc + daysInMonth dt.y (i + 1)) 0 + dt.d)

/-- One row of the retractions CSV, restricted to the three columns the
cleaning stage of `main` consults. -/
structure Row where
  OriginalPaperDate : PyVal
  RetractionDate : PyVal
  OriginalPaperDOI : PyVal
deriving DecidableEq

/-- Models `pd.to_datetime(column, format="mixed", errors="coerce")` on one
cell: a parseable date string yields its date, anything else (missing
value, unparseable string, non-string) coerces to `NaT`, modelled by
`Option.none`.  Date-string formats beyond `-`-separated `Y-M-D` are
outside the model. -/
def to_datetime_coerce : PyVal → Option Date
  | .str s => parseYmd s
  | _ => Option.none

/-- The `correction_time` column of `main`: the day difference between the
coerced `RetractionDate` and `OriginalPaperDate`, `NaN` (modelled by
`Option.none`) when either date coerced to `NaT`. -/
def correction_time (r : Row) : Option Int :=
  match to_datetime_coerce r.OriginalPaperDate, to_datetime_coerce r.RetractionDate with
  | some o, some t => some ((Date.toDays t : Int) - (Date.toDays o : Int))
  | _, _ => Option.none

/-- The cleaning stage of `main`: first
`df.dropna(subset=["correction_time"])`, then
`df.dropna(subset=["OriginalPaperDOI"])`. -/
def main_clean (rows : List Row) : List Row :=
  (rows.filter (fun r => (correction_time r).isSome)).filter
    (fun r => !pd_isna r.OriginalPaperDOI)

/-- Analysis vocabulary for `count_citations`: the fate of one entry in
the loop.  `Option.none` means the loop raises on this entry; `some
Option.none` means the entry is skipped (its standardized creation date is
the unknown marker `NaN`); `some (some d)` means the entry contributes the
date `d` to the comparison. -/
def normCreationDate (c : Citation) : Option (Option Date) :=
  match c.creation with
  | Option.none => Option.none
  | some v =>
    match standardize_date v with
    | Option.none => Option.none
    | some .nan => some Option.none
    | some .none => some Option.none
    | some (.str s) =>
      match parseYmd s with
      | Option.none => Option.none
      | some d => some (some d)
    | some (.int _) => Option.none

/-- An entry whose standardized creation date is known and strictly
earlier than `target`. -/
def citBefore (target : Date) (c : Citation) : Bool :=
  match normCreationDate c with
  | some (some d) => Date.lt d target
  | _ => false

/-- An entry whose standardized creation date is known and strictly later
than `target`. -/
def citAfter (target : Date) (c : Citation) : Bool :=
  match normCreationDate c with
  | some (some d) => Date.lt target d
  | _ => false

/-- An entry whose `strptime`-parsed creation date is strictly earlier
than `target` (the `creation_dates < retraction_date` comparison of
`process_citation_counts`). -/
def procBefore (target : Date) (c : Citation) : Bool :=
  match citDate c with
  | some d => Date.lt d target
  | _ => false

/-- An entry whose `strptime`-parsed creation date is on or after `target`
(the `creation_dates >= retraction_date` comparison of
`process_citation_counts`). -/
def procOnOrAfter (target : Date) (c : Citation) : Bool :=
  match citDate c with
  | some d => !Date.lt d target
  | _ => false

/-- An entry whose `strptime`-parsed creation date equals `target`
exactly. -/
def citEqTarget (target : Date) (c : Citation) : Bool :=
  decide (citDate c = some target)

end RetractionMeta

namespace RetractionMeta

theorem Date.lt_eq_true_iff {a b : Date} :
    Date.lt a b = true ↔
      a.y < b.y ∨ (a.y = b.y ∧ (a.m < b.m ∨ (a.m = b.m ∧ a.d < b.d))) := by
  simp [Date.lt]

theorem Date.lt_asymm {a b : Date} (h : Date.lt a b = true) : Date.lt b a = false := by
  cases hb : Date.lt b a with
  | false => rfl
  | true =>
    rw [Date.lt_eq_true_iff] at h hb
    omega

theorem Date.lt_irrefl (a : Date) : Date.lt a a = false := by
  cases hb : Date.lt a a with
  | false => rfl
  | true =>
    rw [Date.lt_eq_true_iff] at hb
    omega

theorem Date.eq_of_not_lt {a b : Date} (h1 : Date.lt a b = false)
    (h2 : Date.lt b a = false) : a = b := by
  have n1 : ¬(a.y < b.y ∨ (a.y = b.y ∧ (a.m < b.m ∨ (a.m = b.m ∧ a.d < b.d)))) := by
    rw [← Date.lt_eq_true_iff, h1]
    simp
  have n2 : ¬(b.y < a.y ∨ (b.y = a.y ∧ (b.m < a.m ∨ (b.m = a.m ∧ b.d < a.d)))) := by
    rw [← Date.lt_eq_true_iff, h2]
    simp
  obtain ⟨y1, m1, d1⟩ := a
  obtain ⟨y2, m2, d2⟩ := b
  simp only [Date.mk.injEq]
  simp only at n1 n2
  omega

theorem splitDash_three_of_parseYmd {s : String} {d : Date}
    (h : parseYmd s = some d) : ∃ x y z, splitDash s = [x, y, z] := by
  unfold parseYmd at h
  split at h
  next ys ms ds heq => exact ⟨ys, ms, ds, heq⟩
  next => simp at h

theorem standardize_date_of_parseYmd {s : String} {d : Date}
    (h : parseYmd s = some d) : standardize_date (.str s) = some (.str s) := by
  obtain ⟨x, y, z, hs⟩ := splitDash_three_of_parseYmd h
  simp [standardize_date, hs]

theorem normCreationDate_of_citDate {c : Citation} {d : Date}
    (h : citDate c = some d) : normCreationDate c = some (some d) := by
  obtain ⟨creation⟩ := c
  cases creation with
  | none => simp [citDate] at h
  | some v =>
    cases v with
    | str s =>
      have hp : parseYmd s = some d := by simpa [citDate] using h
      simp [normCreationDate, standardize_date_of_parseYmd hp, hp]
    | none => simp [citDate] at h
    | nan => simp [citDate] at h
    | int n => simp [citDate] at h

theorem countP_cons_true {α : Type} {p : α → Bool} {x : α} (l : List α)
    (h : p x = true) : List.countP p (x :: l) = List.countP p l + 1 := by
  simp [List.countP_cons, h]

theorem countP_cons_false {α : Type} {p : α → Bool} {x : α} (l : List α)
    (h : p x = false) : List.countP p (x :: l) = List.countP p l := by
  simp [List.countP_cons, h]

theorem count_loop_char (t : Date) :
    ∀ (cs : List Citation) (b a : Nat),
      (∀ c ∈ cs, (normCreationDate c).isSome) →
      count_citations_loop cs t b a =
        some ⟨b + cs.countP (citBefore t), a + cs.countP (citAfter t)⟩ := by
  intro cs
  induction cs with
  | nil =>
    intro b a _
    simp [count_citations_loop]
  | cons c rest ih =>
    intro b a h
    have hc := h c (List.mem_cons_self c rest)
    have hr : ∀ x ∈ rest, (normCreationDate x).isSome :=
      fun x hx => h x (List.mem_cons_of_mem c hx)
    cases hcr : c.creation with
    | none => simp [normCreationDate, hcr] at hc
    | some v =>
      cases hsd : standardize_date v with
      | none => simp [normCreationDate, hcr, hsd] at hc
      | some pv =>
        cases pv with
        | nan =>
          have hb : citBefore t c = false := by simp [citBefore, normCreationDate, hcr, hsd]
          have ha : citAfter t c = false := by simp [citAfter, normCreationDate, hcr, hsd]
          simp [count_citations_loop, hcr, hsd, ih b a hr, List.countP_cons, hb, ha]
        | none =>
          have hb : citBefore t c = false := by simp [citBefore, normCreationDate, hcr, hsd]
          have ha : citAfter t c = false := by simp [citAfter, normCreationDate, hcr, hsd]
          simp [count_citations_loop, hcr, hsd, ih b a hr, List.countP_cons, hb, ha]
        | int n => simp [normCreationDate, hcr, hsd] at hc
        | str s =>
          cases hp : parseYmd s with
          | none => simp [normCreationDate, hcr, hsd, hp] at hc
          | some d =>
            have hnc : normCreationDate c = some (some d) := by
              simp [normCreationDate, hcr, hsd, hp]
            simp only [count_citations_loop, hcr, hsd, hp]
            split
            next hlt =>
              have hb : citBefore t c = true := by simp [citBefore, hnc, hlt]
              have ha : citAfter t c = false := by
                simp [citAfter, hnc, Date.lt_asymm hlt]
              rw [ih (b + 1) a hr, countP_cons_true rest hb, countP_cons_false rest ha]
              have hadd : b + 1 + List.countP (citBefore t) rest =
                  b + (List.countP (citBefore t) rest + 1) := by omega
              rw [hadd]
            next hlt =>
              have hlt' : Date.lt d t = false := by simpa using hlt
              split
              next hgt =>
                have hb : citBefore t c = false := by simp [citBefore, hnc, hlt']
                have ha : citAfter t c = true := by simp [citAfter, hnc, hgt]
                rw [ih b (a + 1) hr, countP_cons_false rest hb, countP_cons_true rest ha]
                have hadd : a + 1 + List.countP (citAfter t) rest =
                    a + (List.countP (citAfter t) rest + 1) := by omega
                rw [hadd]
              next hgt =>
                have hgt' : Date.lt t d = false := by simpa using hgt
                have hb : citBefore t c = false := by simp [citBefore, hnc, hlt']
                have ha : citAfter t c = false := by simp [citAfter, hnc, hgt']
                rw [ih b a hr, countP_cons_false rest hb, countP_cons_false rest ha]

theorem count_loop_none (t : Date) :
    ∀ (cs : List Citation) (b a : Nat),
      (∃ c ∈ cs, normCreationDate c = Option.none) →
      count_citations_loop cs t b a = Option.none := by
  intro cs
  induction cs with
  | nil =>
    intro b a h
    simp at h
  | cons c rest ih =>
    intro b a h
    cases hcr : c.creation with
    | none => simp [count_citations_loop, hcr]
    | some v =>
      cases hsd : standardize_date v with
      | none => simp [count_citations_loop, hcr, hsd]
      | some pv =>
        cases pv with
        | int n => simp [count_citations_loop, hcr, hsd]
        | nan =>
          have hbad : ∃ x ∈ rest, normCreationDate x = Option.none := by
            rcases h with ⟨x, hx, hnx⟩
            rcases List.mem_cons.mp hx with rfl | hxr
            · simp [normCreationDate, hcr, hsd] at hnx
            · exact ⟨x, hxr, hnx⟩
          simp [count_citations_loop, hcr, hsd, ih b a hbad]
        | none =>
          have hbad : ∃ x ∈ rest, normCreationDate x = Option.none := by
            rcases h with ⟨x, hx, hnx⟩
            rcases List.mem_cons.mp hx with rfl | hxr
            · simp [normCreationDate, hcr, hsd] at hnx
            · exact ⟨x, hxr, hnx⟩
          simp [count_citations_loop, hcr, hsd, ih b a hbad]
        | str s =>
          cases hp : parseYmd s with
          | none => simp [count_citations_loop, hcr, hsd, hp]
          | some d =>
            have hbad : ∃ x ∈ rest, normCreationDate x = Option.none := by
              rcases h with ⟨x, hx, hnx⟩
              rcases List.mem_cons.mp hx with rfl | hxr
              · simp [normCreationDate, hcr, hsd, hp] at hnx
              · exact ⟨x, hxr, hnx⟩
            simp only [count_citations_loop, hcr, hsd, hp]
            split
            · exact ih (b + 1) a hbad
            · split
              · exact ih b (a + 1) hbad
              · exact ih b a hbad

theorem collectDates_some :
    ∀ cs : List Citation, (∀ c ∈ cs, (citDate c).isSome) →
      ∃ ds, collectDates cs = some ds := by
  intro cs
  induction cs with
  | nil => exact fun _ => ⟨[], rfl⟩
  | cons c rest ih =>
    intro h
    obtain ⟨d, hd⟩ := Option.isSome_iff_exists.mp (h c (List.mem_cons_self c rest))
    obtain ⟨ds, hds⟩ := ih (fun x hx => h x (List.mem_cons_of_mem c hx))
    exact ⟨d :: ds, by simp [collectDates, hd, hds]⟩

theorem collectDates_none :
    ∀ cs : List Citation, (∃ c ∈ cs, citDate c = Option.none) →
      collectDates cs = Option.none := by
  intro cs
  induction cs with
  | nil =>
    intro h
    simp at h
  | cons c rest ih =>
    intro h
    cases hcd : citDate c with
    | none => simp [collectDates, hcd]
    | some d =>
      have hbad : ∃ x ∈ rest, citDate x = Option.none := by
        rcases h with ⟨x, hx, hnx⟩
        rcases List.mem_cons.mp hx with rfl | hxr
        · rw [hcd] at hnx
          exact absurd hnx (by simp)
        · exact ⟨x, hxr, hnx⟩
      simp [collectDates, hcd, ih hbad]

theorem collectDates_countP (q : Date → Bool) :
    ∀ (cs : List Citation) (ds : List Date), collectDates cs = some ds →
      ds.countP q =
        cs.countP (fun c =>
          match citDate c with
          | some d => q d
          | _ => false) := by
  intro cs
  induction cs with
  | nil =>
    intro ds h
    simp [collectDates] at h
    subst h
    simp
  | cons c rest ih =>
    intro ds h
    cases hcd : citDate c with
    | none => simp [collectDates, hcd] at h
    | some d =>
      cases hrest : collectDates rest with
      | none => simp [collectDates, hcd, hrest] at h
      | some ds' =>
        simp only [collectDates, hcd, hrest] at h
        have h' : d :: ds' = ds := by simpa using h
        subst h'
        simp [List.countP_cons, ih ds' hrest, hcd]

theorem countP_onOrAfter_split (t : Date) :
    ∀ cs : List Citation, (∀ c ∈ cs, (citDate c).isSome) →
      cs.countP (procOnOrAfter t) =
        cs.countP (citAfter t) + cs.countP (citEqTarget t) := by
  intro cs
  induction cs with
  | nil =>
    intro _
    simp
  | cons c rest ih =>
    intro h
    obtain ⟨d, hd⟩ := Option.isSome_iff_exists.mp (h c (List.mem_cons_self c rest))
    have hnc := normCreationDate_of_citDate hd
    have ihr := ih (fun x hx => h x (List.mem_cons_of_mem c hx))
    by_cases hlt : Date.lt d t = true
    · have h1 : procOnOrAfter t c = false := by simp [procOnOrAfter, hd, hlt]
      have h2 : citAfter t c = false := by simp [citAfter, hnc, Date.lt_asymm hlt]
      have h3 : citEqTarget t c = false := by
        simp only [citEqTarget, hd, decide_eq_false_iff_not]
        intro hdt
        have : d = t := by simpa using hdt
        rw [this, Date.lt_irrefl] at hlt
        exact Bool.noConfusion hlt
      rw [countP_cons_false rest h1, countP_cons_false rest h2,
        countP_cons_false rest h3, ihr]
    · have hlt' : Date.lt d t = false := by simpa using hlt
      have h1 : procOnOrAfter t c = true := by simp [procOnOrAfter, hd, hlt']
      by_cases hgt : Date.lt t d = true
      · have h2 : citAfter t c = true := by simp [citAfter, hnc, hgt]
        have h3 : citEqTarget t c = false := by
          simp only [citEqTarget, hd, decide_eq_false_iff_not]
          intro hdt
          have : d = t := by simpa using hdt
          rw [this, Date.lt_irrefl] at hgt
          exact Bool.noConfusion hgt
        rw [countP_cons_true rest h1, countP_cons_true rest h2,
          countP_cons_false rest h3, ihr]
        omega
      · have hgt' : Date.lt t d = false := by simpa using hgt
        have heq : d = t := Date.eq_of_not_lt hlt' hgt'
        have h2 : citAfter t c = false := by simp [citAfter, hnc, hgt']
        have h3 : citEqTarget t c = true := by simp [citEqTarget, hd, heq]
        rw [countP_cons_true rest h1, countP_cons_false rest h2,
          countP_cons_true rest h3, ihr]
        omega

theorem process_char (cs : List Citation) (t : Date)
    (h : ∀ c ∈ cs, (citDate c).isSome) :
    process_citation_counts cs t =
      some (cs.countP (procBefore t), cs.countP (procOnOrAfter t)) := by
  obtain ⟨ds, hds⟩ := collectDates_some cs h
  simp only [process_citation_counts, hds]
  rw [collectDates_countP (fun d => Date.lt d t) cs ds hds,
    collectDates_countP (fun d => !Date.lt d t) cs ds hds]
  rfl

theorem countP_proc_eq_cit_before (t : Date) (cs : List Citation)
    (h : ∀ c ∈ cs, (citDate c).isSome) :
    cs.countP (procBefore t) = cs.countP (citBefore t) := by
  refine List.countP_congr ?_
  intro c hc
  obtain ⟨d, hd⟩ := Option.isSome_iff_exists.mp (h c hc)
  have hnc := normCreationDate_of_citDate hd
  simp [procBefore, citBefore, hd, hnc]

/-- C1 counterexample: the claim quantifies over every sequence of
citation entries, but on the entry `{"creation": "a-b-c"}` the code
raises: `standardize_date` passes the three-component string through
unchanged and `pd.to_datetime("a-b-c")` throws, so `count_citations`
returns no counts at all (in particular not the `{before: 0, after: 0}`
demanded by the claim, under which a non-date string is not a known
date). -/
theorem C1_counterexample :
    count_citations [⟨some (.str "a-b-c")⟩] ⟨2021, 1, 1⟩ = Option.none ∧
    count_citations [⟨some (.str "a-b-c")⟩] ⟨2021, 1, 1⟩ ≠ some ⟨0, 0⟩ := by
  decide

/-- C1 (amended): for every sequence of citation entries in which each
entry has a `creation` field that is either a missing value or a string
whose standardized form parses as a date, and every target date,
`count_citations` returns `before` equal to the number of entries whose
normalized creation date is known and strictly earlier than the target
date, and `after` equal to the number whose normalized creation date is
known and strictly later; entries whose normalized creation date is
unknown, and entries whose normalized creation date equals the target
date exactly, are counted in neither bucket. -/
theorem C1_count_citations_partition (cs : List Citation) (t : Date)
    (h : ∀ c ∈ cs, (normCreationDate c).isSome) :
    count_citations cs t =
      some ⟨cs.countP (citBefore t), cs.countP (citAfter t)⟩ := by
  simpa [count_citations] using count_loop_char t cs 0 0 h

/-- C1 witness: one entry before, one after, one exactly on the target
date and one with an unknown (year-only) date: only the first two are
counted. -/
theorem C1_witness :
    count_citations
      [⟨some (.str "2019-06-01")⟩, ⟨some (.str "2021-01-01")⟩,
       ⟨some (.str "2020-06-15")⟩, ⟨some (.str "2020")⟩]
      ⟨2020, 6, 15⟩ = some ⟨1, 1⟩ :=
  (C1_count_citations_partition _ _ (by decide)).trans (by decide)

/-- C2: `standardize_date` maps a missing value to the unknown marker, and
a string according to the number of its `-`-separated components: two
components get `-01` appended, three components pass through unchanged,
and any other count (including a single component, i.e. a year-only or
empty string) yields the unknown marker. -/
theorem C2_standardize_date_cases :
    standardize_date .none = some .nan ∧
    standardize_date .nan = some .nan ∧
    ∀ s : String,
      standardize_date (.str s) =
        some (if (splitDash s).length = 2 then .str (s ++ "-01")
              else if (splitDash s).length = 3 then .str s
              else .nan) := by
  refine ⟨rfl, rfl, ?_⟩
  intro s
  rcases hs : splitDash s with _ | ⟨x, _ | ⟨y, _ | ⟨z, _ | ⟨w, l⟩⟩⟩⟩ <;>
    simp [standardize_date, hs]

/-- C3: on citation lists whose creation strings are all well-formed full
dates, the two citation-counting implementations agree on the `before`
count, and `process_citation_counts` counts in its second component
exactly the entries `count_citations` puts in `after` plus those dated
exactly on the target date (`<`/`>` versus `<`/`>=`). -/
theorem C3_strict_vs_inclusive (cs : List Citation) (t : Date)
    (h : ∀ c ∈ cs, (citDate c).isSome) :
    ∃ b a : Nat,
      count_citations cs t = some ⟨b, a⟩ ∧
      process_citation_counts cs t =
        some (b, a + cs.countP (citEqTarget t)) := by
  have hn : ∀ c ∈ cs, (normCreationDate c).isSome := by
    intro c hc
    obtain ⟨d, hd⟩ := Option.isSome_iff_exists.mp (h c hc)
    rw [normCreationDate_of_citDate hd]
    rfl
  refine ⟨cs.countP (citBefore t), cs.countP (citAfter t), ?_, ?_⟩
  · simpa [count_citations] using count_loop_char t cs 0 0 hn
  · rw [process_char cs t h, countP_onOrAfter_split t cs h,
      countP_proc_eq_cit_before t cs h]

/-- C3 witness: one date before, one after and one equal to the target;
`count_citations` reports `{before: 1, after: 1}` while
`process_citation_counts` reports `(1, 2)`. -/
theorem C3_witness :
    ∃ b a : Nat,
      count_citations
        [⟨some (.str "2020-01-01")⟩, ⟨some (.str "2021-06-15")⟩,
         ⟨some (.str "2020-06-15")⟩] ⟨2020, 6, 15⟩ = some ⟨b, a⟩ ∧
      process_citation_counts
        [⟨some (.str "2020-01-01")⟩, ⟨some (.str "2021-06-15")⟩,
         ⟨some (.str "2020-06-15")⟩] ⟨2020, 6, 15⟩ =
        some (b, a + List.countP (citEqTarget ⟨2020, 6, 15⟩)
          [⟨some (.str "2020-01-01")⟩, ⟨some (.str "2021-06-15")⟩,
           ⟨some (.str "2020-06-15")⟩]) :=
  C3_strict_vs_inclusive _ _ (by decide)

/-- C4 counterexample: the claim quantifies over every sequence of
citation entries, but on an entry lacking the `creation` key the lookup
`citation["creation"]` raises `KeyError`, so `count_citations` fails
rather than returning a result. -/
theorem C4_counterexample :
    count_citations [⟨Option.none⟩] ⟨2020, 1, 1⟩ = Option.none := by
  decide

/-- C4 (amended): provided every entry has a `creation` field that is
either a missing value or a string whose standardized form parses as a
date, `count_citations` returns a result rather than raising; and for the
empty citation sequence and any target date it returns
`{before: 0, after: 0}`. -/
theorem C4_count_citations_total (cs : List Citation) (t : Date)
    (h : ∀ c ∈ cs, (normCreationDate c).isSome) :
    (count_citations cs t).isSome ∧ count_citations [] t = some ⟨0, 0⟩ := by
  refine ⟨?_, rfl⟩
  have hc := count_loop_char t cs 0 0 h
  simp [count_citations, hc]

/-- C4 witness: a two-entry list with one missing-valued and one dated
entry is processed without failure. -/
theorem C4_witness :
    (count_citations [⟨some .nan⟩, ⟨some (.str "2020-03-04")⟩] ⟨2021, 1, 1⟩).isSome ∧
    count_citations [] ⟨2021, 1, 1⟩ = some ⟨0, 0⟩ :=
  C4_count_citations_total _ _ (by decide)

/-- C5: `count_citations` is order-independent — permuting the citation
sequence leaves the result unchanged. -/
theorem C5_count_citations_perm (cs cs' : List Citation) (t : Date)
    (h : cs.Perm cs') :
    count_citations cs t = count_citations cs' t := by
  by_cases hall : ∀ c ∈ cs, (normCreationDate c).isSome
  · have hall' : ∀ c ∈ cs', (normCreationDate c).isSome :=
      fun c hc => hall c (h.mem_iff.mpr hc)
    unfold count_citations
    rw [count_loop_char t cs 0 0 hall, count_loop_char t cs' 0 0 hall',
      h.countP_eq (citBefore t), h.countP_eq (citAfter t)]
  · push_neg at hall
    obtain ⟨c, hc, hnc⟩ := hall
    have hnone : normCreationDate c = Option.none :=
      Option.not_isSome_iff_eq_none.mp hnc
    unfold count_citations
    rw [count_loop_none t cs 0 0 ⟨c, hc, hnone⟩,
      count_loop_none t cs' 0 0 ⟨c, h.mem_iff.mp hc, hnone⟩]

/-- C5 witness: swapping the two entries of a concrete list leaves the
counts unchanged. -/
theorem C5_witness :
    count_citations [⟨some (.str "2019-06-01")⟩, ⟨some (.str "2021-01-01")⟩]
      ⟨2020, 6, 15⟩ =
    count_citations [⟨some (.str "2021-01-01")⟩, ⟨some (.str "2019-06-01")⟩]
      ⟨2020, 6, 15⟩ :=
  C5_count_citations_perm _ _ _ (by decide)

/-- C6 counterexample: the claim extends totality to non-string input, but
`standardize_date(5)` raises — `pd.isna(5)` is false and an `int` has no
`.split` method, so the attribute access throws `AttributeError`. -/
theorem C6_counterexample : standardize_date (.int 5) = Option.none := by
  decide

/-- C6 (amended): `standardize_date` is total over every missing value and
every string: it never raises on such input, and every malformed string
(any `-`-component count other than two or three, e.g. a year-only or
empty string) degrades to the unknown marker rather than aborting. -/
theorem C6_standardize_date_no_raise (v : PyVal)
    (h : v = .none ∨ v = .nan ∨ ∃ s, v = .str s) :
    (standardize_date v).isSome ∧
    (∀ s : String, v = .str s → (splitDash s).length ≠ 2 →
      (splitDash s).length ≠ 3 → standardize_date v = some .nan) := by
  rcases h with rfl | rfl | ⟨s, rfl⟩
  · exact ⟨rfl, by intro s h; exact absurd h (by simp)⟩
  · exact ⟨rfl, by intro s h; exact absurd h (by simp)⟩
  · constructor
    · rcases hs : splitDash s with _ | ⟨x, _ | ⟨y, _ | ⟨z, _ | ⟨w, l⟩⟩⟩⟩ <;>
        simp [standardize_date, hs]
    · intro u hu h2 h3
      have hsu : u = s := by
        have := hu
        simp [PyVal.str.injEq] at this
        exact this.symm
      subst hsu
      rcases hs : splitDash u with _ | ⟨x, _ | ⟨y, _ | ⟨z, _ | ⟨w, l⟩⟩⟩⟩ <;>
        rw [hs] at h2 h3 <;> simp [standardize_date, hs] <;> simp at h2 h3

/-- C6 witness: a dash-free garbage string is handled without raising and
normalizes to the unknown marker. -/
theorem C6_witness :
    (standardize_date (.str "garbage")).isSome ∧
    standardize_date (.str "garbage") = some .nan :=
  ⟨(C6_standardize_date_no_raise _ (Or.inr (Or.inr ⟨_, rfl⟩))).1,
   (C6_standardize_date_no_raise _ (Or.inr (Or.inr ⟨_, rfl⟩))).2 "garbage" rfl
     (by decide) (by decide)⟩

/-- C7: `read_csv_robust` returns the detected-encoding parse when it
succeeds; retries UTF-8 only when the detected attempt failed; retries
ISO-8859-1 only when both earlier attempts failed; and returns `None`
(no partial table) when all three attempts fail. -/
theorem C7_read_csv_robust_chain {α : Type} (detected : Encoding)
    (attempt : Encoding → Option α) :
    (∀ t, attempt detected = some t →
      read_csv_robust detected attempt = some t) ∧
    (attempt detected = Option.none →
      ∀ t, attempt .utf8 = some t →
        read_csv_robust detected attempt = some t) ∧
    (attempt detected = Option.none → attempt .utf8 = Option.none →
      ∀ t, attempt .iso8859_1 = some t →
        read_csv_robust detected attempt = some t) ∧
    (attempt detected = Option.none → attempt .utf8 = Option.none →
      attempt .iso8859_1 = Option.none →
      read_csv_robust detected attempt = Option.none) := by
  refine ⟨?_, ?_, ?_, ?_⟩ <;> intros <;> simp_all [read_csv_robust]

/-- C7 witness: a detection guess that fails to parse while UTF-8
succeeds makes the reader return the UTF-8 table. -/
theorem C7_witness :
    read_csv_robust (.other "windows-1252")
      (fun e => if e = Encoding.utf8 then some 7 else Option.none) = some 7 :=
  (C7_read_csv_robust_chain (.other "windows-1252")
    (fun e => if e = Encoding.utf8 then some 7 else Option.none)).2.1
    (by decide) 7 (by decide)

/-- C8: `fetch_citations` returns the empty list on a transport error and
on any non-200 status, never propagating the failure, and returns the
response's parsed citation list exactly on a 200 status. -/
theorem C8_fetch_citations_best_effort :
    fetch_citations .err = [] ∧
    (∀ (status : Nat) (body : Option (List Citation)), status ≠ 200 →
      fetch_citations (.response status body) = []) ∧
    (∀ citations : List Citation,
      fetch_citations (.response 200 (some citations)) = citations) := by
  refine ⟨rfl, ?_, fun citations => rfl⟩
  intro status body h
  simp [fetch_citations, h]

/-- C8 witness: a 404 response yields the empty citation list. -/
theorem C8_witness :
    fetch_citations (.response 404 (some [⟨some (.str "2020-01-01")⟩])) = [] :=
  C8_fetch_citations_best_effort.2.1 404 (some [⟨some (.str "2020-01-01")⟩])
    (by decide)

/-- C9: a row survives the cleaning stage of `main` exactly when it was in
the input, its correction time is computable (both its dates coerce to
real dates), and its `OriginalPaperDOI` is not missing; every row failing
either condition is absent from the cleaned record set. -/
theorem C9_main_clean_membership (rows : List Row) (r : Row) :
    r ∈ main_clean rows ↔
      r ∈ rows ∧ (correction_time r).isSome ∧
        pd_isna r.OriginalPaperDOI = false := by
  simp [main_clean, List.mem_filter, and_assoc, and_comm]

/-- C9 witness: a complete row survives cleaning while a row with a
missing DOI is dropped. -/
theorem C9_witness :
    (⟨.str "2019-01-01", .str "2020-06-15", .str "10.1/x"⟩ : Row) ∈
      main_clean [⟨.str "2019-01-01", .str "2020-06-15", .str "10.1/x"⟩,
        ⟨.str "2019-01-01", .str "2020-06-15", .nan⟩] ∧
    (⟨.str "2019-01-01", .str "2020-06-15", .nan⟩ : Row) ∉
      main_clean [⟨.str "2019-01-01", .str "2020-06-15", .str "10.1/x"⟩,
        ⟨.str "2019-01-01", .str "2020-06-15", .nan⟩] :=
  ⟨(C9_main_clean_membership _ _).mpr (by decide),
   fun hm => absurd ((C9_main_clean_membership _ _).mp hm).2.2 (by decide)⟩

/-- C10: `process_citation_counts` is all-or-nothing — if any entry's
creation field is absent or fails to parse as a full `Y-M-D` date, the
whole call returns `(NaN, NaN)` (modelled by `Option.none`), discarding
the well-formed entries too. -/
theorem C10_process_all_or_nothing (cs : List Citation) (t : Date)
    (h : ∃ c ∈ cs, citDate c = Option.none) :
    process_citation_counts cs t = Option.none := by
  rw [process_citation_counts, collectDates_none cs h]

/-- C10 witness: one year-only entry makes the whole call return
`(NaN, NaN)` even though the other entry is a well-formed full date. -/
theorem C10_witness :
    process_citation_counts
      [⟨some (.str "2020-01-01")⟩, ⟨some (.str "2020")⟩] ⟨2021, 1, 1⟩ =
      Option.none :=
  C10_process_all_or_nothing _ _ ⟨⟨some (.str "2020")⟩, by decide, by decide⟩

end RetractionMeta
